import Mathlib

/-!
Verification of the IMAP MCP server core (src/main.py) against its
natural-language specification.

The embedding models the dynamically-typed Python values flowing through the
query compiler as a universal value type `Py` (strings, lists, dicts), keeps
the source structure of `dsl_to_search` (with its inner helpers
`format_date`, `parse_condition`, `parse_criteria`), the message
reconstructor `get_email_body`, and the two tool operations `search` and
`fetch`.  Fallible Python code (exceptions) is modelled with `Except`;
the transport session is modelled by an abstract server record, and the
orchestrator is given an observable event trace so that claims about
network activity, batching and throttling can be stated.
-/

/-- Universal value type for the JSON-like criteria dictionaries and the
IMAPClient token lists handled by `dsl_to_search` in src/main.py.  Python
dicts are insertion-ordered association lists. -/
inductive Py where
  | str : String → Py
  | list : List Py → Py
  | dict : List (String × Py) → Py

/-- Python dict key lookup (`key in d` / `d[key]`): first matching entry. -/
def lookup : List (String × Py) → String → Option Py
  | [], _ => none
  | (k, v) :: rest, key => if k = key then some v else lookup rest key

/-- Month abbreviations produced by C-locale strftime `%b`. -/
def monthAbbrev : Nat → String
  | 1 => "Jan" | 2 => "Feb" | 3 => "Mar" | 4 => "Apr" | 5 => "May" | 6 => "Jun"
  | 7 => "Jul" | 8 => "Aug" | 9 => "Sep" | 10 => "Oct" | 11 => "Nov" | 12 => "Dec"
  | _ => ""

def isLeapYear (y : Nat) : Bool :=
  (y % 4 == 0 && y % 100 != 0) || (y % 400 == 0)

def daysInMonth (y m : Nat) : Nat :=
  if m == 2 then (if isLeapYear y then 29 else 28)
  else if m == 4 || m == 6 || m == 9 || m == 11 then 30
  else 31

/-- Zero-padded two-digit day, as strftime `%d` prints it. -/
def pad2 (n : Nat) : String :=
  if n < 10 then "0" ++ toString n else toString n

/-- Split a character list at every occurrence of `c`
(Python `str.split` with a one-character separator). -/
def splitOnChar (c : Char) : List Char → List (List Char)
  | [] => [[]]
  | x :: xs =>
      let r := splitOnChar c xs
      if x == c then [] :: r
      else
        match r with
        | [] => [[x]]
        | g :: gs => (x :: g) :: gs

/-- Numeric value of a non-empty all-ASCII-digit character list. -/
def digitsToNat (cs : List Char) : Option Nat :=
  if cs ≠ [] ∧ cs.all Char.isDigit then
    some (cs.foldl (fun n c => 10 * n + (c.toNat - 48)) 0)
  else none

/-- src/main.py lines 45-48: `datetime.strptime(date_str, "%Y-%m-%d")`
followed by `strftime("%d-%b-%Y")`.  The strptime format requires exactly a
4-digit year, a 1-2 digit month in 1..12 and a 1-2 digit calendar-valid day
(ASCII digits), and the whole string must be consumed; a failed parse raises,
which is modelled as `none`. -/
def format_date (s : String) : Option String :=
  match splitOnChar '-' s.toList with
  | [ys, ms, ds] =>
    match digitsToNat ys, digitsToNat ms, digitsToNat ds with
    | some y, some m, some d =>
      if ys.length = 4 ∧ ms.length ≤ 2 ∧ ds.length ≤ 2 ∧
          1 ≤ y ∧ 1 ≤ m ∧ m ≤ 12 ∧ 1 ≤ d ∧ d ≤ daysInMonth y m then
        some (pad2 d ++ "-" ++ monthAbbrev m ++ "-" ++ toString y)
      else none
    | _, _, _ => none
  | _ => none

/-- `format_date` applied to a dict value: a non-string raises TypeError in
strptime, a malformed date string raises ValueError. -/
def format_date_py : Py → Except String String
  | .str s =>
    match format_date s with
    | some d => .ok d
    | none => .error "ValueError: time data does not match format"
  | _ => .error "TypeError: strptime argument must be str"

/-- src/main.py lines 50-63 (`parse_condition`): emit the opcode/operand
pair for the first recognized leaf key of `cond`, checking the keys in the
fixed order from, to, cc, subject, since, before; no recognized key yields
the empty contribution. -/
def parse_condition (cond : List (String × Py)) : Except String (List Py) :=
  match lookup cond "from" with
  | some v => .ok [Py.str "FROM", v]
  | none =>
  match lookup cond "to" with
  | some v => .ok [Py.str "TO", v]
  | none =>
  match lookup cond "cc" with
  | some v => .ok [Py.str "CC", v]
  | none =>
  match lookup cond "subject" with
  | some v => .ok [Py.str "SUBJECT", v]
  | none =>
  match lookup cond "since" with
  | some v => do
      let d ← format_date_py v
      .ok [Py.str "SINCE", Py.str d]
  | none =>
  match lookup cond "before" with
  | some v => do
      let d ← format_date_py v
      .ok [Py.str "BEFORE", Py.str d]
  | none => .ok []

/-- src/main.py lines 69-73: the leaf loop of `parse_criteria` — iterate the
dict entries in insertion order, and for every key other than "or"/"not"
extend the result with `parse_condition` of the single-key dict. -/
def leafLoop : List (String × Py) → Except String (List Py)
  | [] => .ok []
  | (k, v) :: rest => do
      let tk ← if k = "or" ∨ k = "not" then pure [] else parse_condition [(k, v)]
      let restT ← leafLoop rest
      .ok (tk ++ restT)

/-- src/main.py lines 98-104: combine the compiled or-groups.  With fewer
than two groups nothing is added; otherwise the first two groups follow a
single OR opcode, and every further group re-wraps the whole accumulated
result (`result = ["OR"] + result + or_conditions[i]`). -/
def combineOr (result : List Py) (groups : List (List Py)) : List Py :=
  match groups with
  | g0 :: g1 :: rest =>
      rest.foldl (fun acc g => Py.str "OR" :: (acc ++ g))
        (result ++ Py.str "OR" :: (g0 ++ g1))
  | _ => result

mutual

/-- src/main.py lines 65-110 (`parse_criteria`): leaf conditions first, then
the "not" group, then the "or" combination; an empty result falls through to
`parse_condition` on the whole dict.  Called on a non-dict (an element of a
"not"/"or" list that is not a dict) Python raises AttributeError on
`.items()`. -/
def parse_criteria : Py → Except String (List Py)
  | .dict entries => do
      let base ← leafLoop entries
      let nt ← notPart entries
      let gs ← orPart entries
      let result := combineOr (base ++ nt) gs
      if result.isEmpty then parse_condition entries else .ok result
  | _ => .error "AttributeError: object has no attribute items"

/-- src/main.py lines 76-88: locate the first "not" entry; its value is
processed by `notValue`. -/
def notPart : List (String × Py) → Except String (List Py)
  | [] => .ok []
  | (k, v) :: rest => if k = "not" then notValue v else notPart rest

/-- src/main.py lines 79-88: if the "not" value is a list, recursively
compile every sub-expression, concatenate all their tokens into one group
and wrap the non-empty group in a single NOT opcode with a nested token
list; a non-list value is ignored (`isinstance` check). -/
def notValue : Py → Except String (List Py)
  | .list l => do
      let notConds ← concatCompile l
      .ok (if notConds.isEmpty then [] else [Py.str "NOT", Py.list notConds])
  | _ => .ok []

/-- src/main.py lines 90-95: locate the first "or" entry; its value is
processed by `orValue`. -/
def orPart : List (String × Py) → Except String (List (List Py))
  | [] => .ok []
  | (k, v) :: rest => if k = "or" then orValue v else orPart rest

/-- src/main.py lines 92-95: if the "or" value is a list, compile every
sub-expression into its own token group; a non-list value is ignored. -/
def orValue : Py → Except String (List (List Py))
  | .list l => orGroups l
  | _ => .ok []

/-- Token concatenation over the elements of a "not" list
(src/main.py lines 82-84). -/
def concatCompile : List Py → Except String (List Py)
  | [] => .ok []
  | c :: cs => do
      let t ← parse_criteria c
      let ts ← concatCompile cs
      .ok (t ++ ts)

/-- One compiled group per element of an "or" list
(src/main.py lines 93-95). -/
def orGroups : List Py → Except String (List (List Py))
  | [] => .ok []
  | c :: cs => do
      let g ← parse_criteria c
      let gs ← orGroups cs
      .ok (g :: gs)

end

/-- src/main.py lines 112-118 (`dsl_to_search`): compile the criteria and
substitute the single "ALL" token for an empty top-level result. -/
def dsl_to_search (dsl : Py) : Except String (List Py) := do
  let search_criteria ← parse_criteria dsl
  .ok (if search_criteria.isEmpty then [Py.str "ALL"] else search_criteria)

/-! ## Message reconstructor (src/main.py lines 20-41, `get_email_body`) -/

/-- ASCII lower-casing of one character (Python `str.lower`, restricted to
the ASCII range used by MIME content types and dispositions). -/
def lowerChar (c : Char) : Char :=
  if 65 ≤ c.toNat ∧ c.toNat ≤ 90 then Char.ofNat (c.toNat + 32) else c

def leadingMatch : List Char → List Char → Bool
  | [], _ => true
  | _ :: _, [] => false
  | a :: as, b :: bs => a == b && leadingMatch as bs

/-- Substring test on character lists (Python `needle in hay`). -/
def containsChars (needle : List Char) : List Char → Bool
  | [] => needle.isEmpty
  | c :: rest => leadingMatch needle (c :: rest) || containsChars needle rest

/-- One MIME part as `msg.walk()` yields it: content type, the raw
Content-Disposition header (defaulted to the empty string when absent), and
the decoded payload text.  Per-part charset decoding is done by the external
email library (decode errors are replaced, never fatal), so parts carry
already-decoded text. -/
structure MimePart where
  contentType : String
  contentDisposition : String
  text : String

/-- A parsed message: its MIME parts in document order and its headers. -/
structure Email where
  parts : List MimePart
  headers : List (String × String)

/-- src/main.py lines 26-28: `"attachment" in content_disposition.lower()`. -/
def is_attachment (p : MimePart) : Bool :=
  containsChars "attachment".toList (p.contentDisposition.toList.map lowerChar)

/-- src/main.py lines 24-39: the part walk, accumulating the first
non-attachment text/plain payload and the first non-attachment text/html
payload (`text_part`, `html_part`). -/
def bodyScan : List MimePart → Option String → Option String → Option String × Option String
  | [], text_part, html_part => (text_part, html_part)
  | p :: rest, text_part, html_part =>
      if is_attachment p then bodyScan rest text_part html_part
      else if p.contentType == "text/plain" && text_part.isNone then
        bodyScan rest (some p.text) html_part
      else if p.contentType == "text/html" && html_part.isNone then
        bodyScan rest text_part (some p.text)
      else bodyScan rest text_part html_part

/-- Python `a or b` on an optional string and a string: `a` unless `a` is
`None` or empty (falsy). -/
def pyStrOr (a : Option String) (b : String) : String :=
  match a with
  | some s => if s = "" then b else s
  | none => b

/-- src/main.py lines 20-41: `return text_part or html_part or ""`. -/
def get_email_body (msg : Email) : String :=
  let r := bodyScan msg.parts none none
  pyStrOr r.1 (pyStrOr r.2 "")

/-- Spec-side helper (section 4.2 of the spec): the decoded text of the
first non-attachment part of the given content type, if any. -/
def firstOfType (ct : String) (parts : List MimePart) : Option String :=
  ((parts.filter (fun p => !is_attachment p)).find?
    (fun p => p.contentType == ct)).map MimePart.text

/-- Spec-side definition (section 4.2 of the spec): the decoded text of the
first non-attachment text/plain part, if any. -/
def firstPlainPart (msg : Email) : Option String :=
  firstOfType "text/plain" msg.parts

/-- Spec-side definition (section 4.2 of the spec): the decoded text of the
first non-attachment text/html part, if any. -/
def firstHtmlPart (msg : Email) : Option String :=
  firstOfType "text/html" msg.parts

/-! ## Retrieval orchestrator (src/main.py lines 141-336) -/

/-- Observable actions the orchestrator performs on its environment:
session activity on the transport, and the inter-batch pause. -/
inductive Ev where
  | connect
  | login
  | selectFolder (folder : String)
  | searchCall (criteria : List Py)
  | fetchCall (ids : List Nat) (items : List String)
  | sleepFor (seconds : ℚ)

def isFetchEv : Ev → Bool
  | .fetchCall _ _ => true
  | _ => false

def isThrottleEv : Ev → Bool
  | .fetchCall _ _ => true
  | .sleepFor _ => true
  | _ => false

/-- The transport session's view of one folder for one `search` request:
the id list its SEARCH returns and the parsed message its FETCH returns per
id (a well-behaved server answering every requested id). -/
structure Server where
  searchResult : List Nat
  store : Nat → Email

def BATCH_SIZE : Nat := 50

def SLEEP_TIME : ℚ := 0.5

/-- src/main.py lines 275-281: `for i in range(0, len(msg_ids), BATCH_SIZE)`
— fetch one batch `msg_ids[i : i + BATCH_SIZE]`, and sleep for `SLEEP_TIME`
afterwards unless `i + BATCH_SIZE < len(msg_ids)` fails (i.e. never after
the final batch). -/
def fetchLoop (msg_ids : List Nat) (items : List String) (i : Nat) : List Ev :=
  if i < msg_ids.length then
    Ev.fetchCall ((msg_ids.drop i).take BATCH_SIZE) items ::
      ((if i + BATCH_SIZE < msg_ids.length then [Ev.sleepFor SLEEP_TIME] else []) ++
        fetchLoop msg_ids items (i + BATCH_SIZE))
  else []
termination_by msg_ids.length - i
decreasing_by simp [BATCH_SIZE]; omega

/-- First-match lookup in a string-keyed association list (Python dict
lookup for headers and for the `fields` argument). -/
def lookupStr {α : Type} : List (String × α) → String → Option α
  | [], _ => none
  | (k, v) :: rest, key => if k = key then some v else lookupStr rest key

def HEADER_NAMES : List String := ["From", "To", "Cc", "Subject", "Date", "Message-ID"]

/-- src/main.py lines 292-297: keep each of the six header names that is
present on the message, lower-casing the key, in the fixed order. -/
def extract_headers (em : Email) : List (String × String) :=
  HEADER_NAMES.foldl (fun hs h =>
    match lookupStr em.headers h with
    | some v => hs ++ [(String.mk (h.toList.map lowerChar), v)]
    | none => hs) []

/-- One entry of the `messages` list built by `search`
(src/main.py lines 283-303): `headers`/`body` are present only if
requested. -/
structure Message where
  id : String
  headers : Option (List (String × String))
  body : Option String

def build_message (folder : String) (fetch_headers fetch_body : Bool)
    (store : Nat → Email) (id : Nat) : Message :=
  let em := store id
  { id := toString id ++ "@" ++ folder
    headers := if fetch_headers then some (extract_headers em) else none
    body := if fetch_body then some (get_email_body em) else none }

/-- src/main.py lines 142-306 (the `search` tool): default the fields,
compile the criteria (a compile failure raises before any session is
opened), open the session, search, short-circuit when nothing was requested
or nothing matched, otherwise fetch in batches with throttling and build the
ordered message list.  The result models the returned `{"messages": ...}`
dict; the debug log message (wrapped in try/except pass) has no observable
effect and the STARTTLS/TLS connection choice is transport configuration
outside this core. -/
def search (folder : String) (criteria : Py) (fields : Option (List (String × Bool)))
    (srv : Server) : List Ev × Except String (List Message) :=
  let f := fields.getD []
  let fetch_headers := (lookupStr f "headers").getD false
  let fetch_body := (lookupStr f "body").getD false
  let fetch_email_data := fetch_headers || fetch_body
  match dsl_to_search criteria with
  | .error e => ([], .error e)
  | .ok toks =>
      let search_criteria := Py.str "charset" :: Py.str "UTF-8" :: toks
      let pre := [Ev.connect, Ev.login, Ev.selectFolder folder,
        Ev.searchCall search_criteria]
      let msg_ids := srv.searchResult
      if !fetch_email_data || msg_ids.isEmpty then
        (pre, .ok [])
      else
        let fetch_items := if fetch_headers || fetch_body then ["RFC822"] else []
        (pre ++ fetchLoop msg_ids fetch_items 0,
          .ok (msg_ids.map (build_message folder fetch_headers fetch_body srv.store)))

/-! ## The fetch tool (src/main.py lines 309-336) -/

/-- Split a character list at the first occurrence of `c`, keeping the
remainder whole (Python `str.split(c, 1)` when `c` occurs). -/
def splitFirst (c : Char) : List Char → Option (List Char × List Char)
  | [] => none
  | x :: xs =>
      if x == c then some ([], xs)
      else
        match splitFirst c xs with
        | some (a, b) => some (x :: a, b)
        | none => none

/-- Python `message_id.split("@", 1)` unpacked into two names: split at the
first `@` only; with no `@` present the unpacking raises ValueError
(modelled as `none`). -/
def split1At (s : String) : Option (String × String) :=
  match splitFirst '@' s.toList with
  | some (a, b) => some (String.mk a, String.mk b)
  | none => none

/-- src/main.py lines 309-336 (the `fetch` tool): for each id string in
order, split off the folder, convert the numeric id (`int(id)`, modelled
for decimal digit strings), open a fresh session, select the folder and
fetch that single id.  `resp[int(id)]` on an id the folder does not contain
raises KeyError, which propagates and aborts the whole call — there is no
per-entry error handling.  `store` maps folder name and numeric id to the
parsed message, `none` when the id does not exist in that folder. -/
def fetch : List String → (String → Nat → Option Email) → Except String (List (String × String))
  | [], _ => .ok []
  | message_id :: rest, store =>
      match split1At message_id with
      | none => .error "ValueError: not enough values to unpack"
      | some (idStr, folder) =>
          match digitsToNat idStr.toList with
          | none => .error "ValueError: invalid literal for int"
          | some n =>
              match store folder n with
              | none => .error ("KeyError: " ++ toString n)
              | some em => do
                  let restResults ← fetch rest store
                  .ok ((message_id, get_email_body em) :: restResults)

/-! ## Auxiliary predicates and concrete fixtures used by the claims -/

/-- The six leaf condition keys, in the fixed order `parse_condition` checks
them. -/
def leafKeys : List String := ["from", "to", "cc", "subject", "since", "before"]

/-- All keys the compiler recognizes; anything else is silently ignored. -/
def recognizedKeys : List String := leafKeys ++ ["or", "not"]

/-- A string value `strptime` rejects (non-strings raise a different error
and are not covered by this predicate). -/
def badDateValue : Py → Bool
  | .str s => (format_date s).isNone
  | _ => false

/-- A since/before entry whose string value `strptime` rejects. -/
def leafBadDate : List (String × Py) → Bool
  | [] => false
  | (k, v) :: rest =>
      ((k == "since" || k == "before") && badDateValue v) || leafBadDate rest

mutual

/-- The criteria tree contains a malformed since/before date string at a
position the compiler evaluates: directly among the entries of a dict, or
inside the list of the first "not" / first "or" entry (the only sub-lists
`parse_criteria` recurses into). -/
def criteriaHasBadDate : Py → Bool
  | .dict entries => leafBadDate entries || notBadDate entries || orBadDate entries
  | _ => false

def notBadDate : List (String × Py) → Bool
  | [] => false
  | (k, v) :: rest => if k = "not" then badListValue v else notBadDate rest

def orBadDate : List (String × Py) → Bool
  | [] => false
  | (k, v) :: rest => if k = "or" then badListValue v else orBadDate rest

def badListValue : Py → Bool
  | .list l => listBadDate l
  | _ => false

def listBadDate : List Py → Bool
  | [] => false
  | c :: cs => criteriaHasBadDate c || listBadDate cs

end

/-- The entries of a criteria dict that the leaf loop of `parse_criteria`
processes (every key other than "or"/"not"), in insertion order. -/
def leafEntries (entries : List (String × Py)) : List (String × Py) :=
  entries.filter (fun kv => !(kv.1 == "or" || kv.1 == "not"))

/-- The token sequence the or-combination step produces from the already
compiled leaf tokens, not-group tokens and or-groups: with at most two
or-groups the parts concatenate in the fixed order; each group beyond the
second re-wraps the whole accumulated result as the left operand of a new
OR. -/
def orCombineSpec (base nt : List Py) (gs : List (List Py)) : List Py :=
  match gs with
  | g0 :: g1 :: rest =>
      rest.foldl (fun acc g => Py.str "OR" :: (acc ++ g))
        (base ++ nt ++ Py.str "OR" :: (g0 ++ g1))
  | _ => base ++ nt

/-- A message whose first text/plain part decodes to the empty string while
a text/html part carries content (fixture for claim C4). -/
def c4msg : Email :=
  { parts := [{ contentType := "text/plain", contentDisposition := "", text := "" },
              { contentType := "text/html", contentDisposition := "", text := "<p>hi</p>" }],
    headers := [] }

/-- Same shape as `c4msg`, fixture for claim C10. -/
def c10msg : Email :=
  { parts := [{ contentType := "text/plain", contentDisposition := "", text := "" },
              { contentType := "text/html", contentDisposition := "", text := "<b>h</b>" }],
    headers := [] }

def c3email : Email :=
  { parts := [{ contentType := "text/plain", contentDisposition := "", text := "hello" }],
    headers := [] }

/-- A mailstore whose INBOX contains message 42 only (fixture for claim
C3): id 43 does not exist. -/
def c3store : String → Nat → Option Email :=
  fun folder n => if folder = "INBOX" ∧ n = 42 then some c3email else none

/-- A trivial message used as the stored value in orchestrator fixtures. -/
def emptyEmail : Email := { parts := [], headers := [] }

-- Sanity checks against the repository test suite (test_main.py).
example : dsl_to_search (Py.dict [("from", Py.str "example@example.com")]) =
    .ok [Py.str "FROM", Py.str "example@example.com"] := rfl

example : dsl_to_search (Py.dict [("since", Py.str "2023-01-15")]) =
    .ok [Py.str "SINCE", Py.str "15-Jan-2023"] := rfl

example : dsl_to_search (Py.dict [("since", Py.str "2023-01-01"), ("before", Py.str "2023-12-31")]) =
    .ok [Py.str "SINCE", Py.str "01-Jan-2023", Py.str "BEFORE", Py.str "31-Dec-2023"] := rfl

example : dsl_to_search (Py.dict []) = .ok [Py.str "ALL"] := rfl

example : dsl_to_search (Py.dict [("not", Py.list [Py.dict [("from", Py.str "spam@example.com")],
      Py.dict [("subject", Py.str "buy now")]])]) =
    .ok [Py.str "NOT", Py.list [Py.str "FROM", Py.str "spam@example.com",
      Py.str "SUBJECT", Py.str "buy now"]] := rfl

example : dsl_to_search (Py.dict
      [("from", Py.str "important@example.com"),
       ("not", Py.list [Py.dict [("subject", Py.str "unimportant")]]),
       ("or", Py.list [Py.dict [("subject", Py.str "urgent")],
                       Py.dict [("to", Py.str "important@example.com")]])]) =
    .ok [Py.str "FROM", Py.str "important@example.com",
         Py.str "NOT", Py.list [Py.str "SUBJECT", Py.str "unimportant"],
         Py.str "OR", Py.str "SUBJECT", Py.str "urgent",
         Py.str "TO", Py.str "important@example.com"] := rfl

/-! ## Claim theorems -/

/-- Claim C1, counterexample: with the two leaf keys given in the order
subject, from, the compiled tokens list the SUBJECT pair before the FROM
pair — token order follows the input key order, while the claimed fixed
field precedence would demand the FROM pair first. -/
theorem c1_counterexample :
    dsl_to_search (Py.dict [("subject", Py.str "y"), ("from", Py.str "x")]) =
      Except.ok [Py.str "SUBJECT", Py.str "y", Py.str "FROM", Py.str "x"] ∧
    [Py.str "SUBJECT", Py.str "y", Py.str "FROM", Py.str "x"] ≠
      [Py.str "FROM", Py.str "x", Py.str "SUBJECT", Py.str "y"] :=
  ⟨rfl, by simp⟩

/-- Claim C2, counterexample: with a leaf field and a three-element or list,
the compiled sequence starts with an OR opcode, not with the leaf-field
tokens — the third or-group re-wraps the entire accumulated result, so the
claimed concatenation order leaf fields, not group, or group fails. -/
theorem c2_counterexample :
    dsl_to_search (Py.dict
        [("from", Py.str "a"),
         ("or", Py.list [Py.dict [("to", Py.str "b")], Py.dict [("cc", Py.str "c")],
                         Py.dict [("subject", Py.str "d")]])]) =
      Except.ok [Py.str "OR", Py.str "FROM", Py.str "a", Py.str "OR", Py.str "TO",
        Py.str "b", Py.str "CC", Py.str "c", Py.str "SUBJECT", Py.str "d"] ∧
    [Py.str "OR", Py.str "FROM", Py.str "a", Py.str "OR", Py.str "TO",
        Py.str "b", Py.str "CC", Py.str "c", Py.str "SUBJECT", Py.str "d"].take 2 ≠
      [Py.str "FROM", Py.str "a"] :=
  ⟨rfl, by simp⟩

/-- Claim C3, counterexample: in a folder that contains message 42 but not
message 43, fetching both aborts the entire call with the KeyError raised
for 43 — no mapping is returned, so the existing id 42 does not resolve,
while the claim promises a best-effort mapping in which 42 still resolves. -/
theorem c3_counterexample :
    c3store "INBOX" 42 = some c3email ∧ c3store "INBOX" 43 = none ∧
    fetch ["43@INBOX", "42@INBOX"] c3store = Except.error "KeyError: 43" :=
  ⟨rfl, rfl, rfl⟩

/-- Claim C4, counterexample: a first non-attachment text/plain part exists
but decodes to the empty string, and the selected body is the html part's
text rather than the plain part's empty text the claim requires. -/
theorem c4_counterexample :
    firstPlainPart c4msg = some "" ∧
    get_email_body c4msg = "<p>hi</p>" ∧ "<p>hi</p>" ≠ "" :=
  ⟨rfl, rfl, by simp⟩

/-! ## Helper lemmas about the query compiler -/

@[simp] theorem exceptBind_ok {ε α β : Type} (a : α) (f : α → Except ε β) :
    (Except.ok a >>= f) = f a := rfl

@[simp] theorem exceptBind_error {ε α β : Type} (e : ε) (f : α → Except ε β) :
    ((Except.error e : Except ε α) >>= f) = Except.error e := rfl

@[simp] theorem exceptMap_ok {ε α β : Type} (a : α) (f : α → β) :
    (f <$> (Except.ok a : Except ε α)) = Except.ok (f a) := rfl

@[simp] theorem exceptMap_error {ε α β : Type} (e : ε) (f : α → β) :
    (f <$> (Except.error e : Except ε α)) = (Except.error e : Except ε β) := rfl

theorem lookup_eq_none {entries : List (String × Py)} {key : String}
    (h : ∀ kv ∈ entries, kv.1 ≠ key) : lookup entries key = none := by
  induction entries with
  | nil => rfl
  | cons kv rest ih =>
      obtain ⟨k, v⟩ := kv
      simp only [lookup]
      rw [if_neg (h (k, v) (by simp))]
      exact ih fun kv hkv => h kv (by simp [hkv])

theorem parse_condition_no_leaf {cond : List (String × Py)}
    (h : ∀ kv ∈ cond, kv.1 ∉ leafKeys) : parse_condition cond = .ok [] := by
  have hk : ∀ key ∈ leafKeys, lookup cond key = none := by
    intro key hkey
    exact lookup_eq_none fun kv hkv he => h kv hkv (he ▸ hkey)
  rw [parse_condition]
  rw [hk "from" (by simp [leafKeys]), hk "to" (by simp [leafKeys]),
    hk "cc" (by simp [leafKeys]), hk "subject" (by simp [leafKeys]),
    hk "since" (by simp [leafKeys]), hk "before" (by simp [leafKeys])]

theorem notPart_ok_nil {entries : List (String × Py)}
    (h : ∀ kv ∈ entries, kv.1 ≠ "not") : notPart entries = .ok [] := by
  induction entries with
  | nil => rfl
  | cons kv rest ih =>
      obtain ⟨k, v⟩ := kv
      rw [notPart, if_neg (h (k, v) (by simp))]
      exact ih fun kv hkv => h kv (by simp [hkv])

theorem orPart_ok_nil {entries : List (String × Py)}
    (h : ∀ kv ∈ entries, kv.1 ≠ "or") : orPart entries = .ok [] := by
  induction entries with
  | nil => rfl
  | cons kv rest ih =>
      obtain ⟨k, v⟩ := kv
      rw [orPart, if_neg (h (k, v) (by simp))]
      exact ih fun kv hkv => h kv (by simp [hkv])

theorem orFold_ne_nil (rest : List (List Py)) (init : List Py) (h : init ≠ []) :
    rest.foldl (fun acc g => Py.str "OR" :: (acc ++ g)) init ≠ [] := by
  induction rest generalizing init with
  | nil => exact h
  | cons g rest ih => exact ih _ (by simp)

theorem combineOr_ne_nil {res : List Py} (gs : List (List Py)) (h : res ≠ []) :
    combineOr res gs ≠ [] := by
  match gs with
  | [] => simpa [combineOr]
  | [g] => simpa [combineOr]
  | g0 :: g1 :: rest =>
      rw [combineOr]
      exact orFold_ne_nil rest _ (by simp [h])

theorem concatCompile_eq {l : List Py} {gs : List (List Py)}
    (h : l.mapM parse_criteria = Except.ok gs) :
    concatCompile l = Except.ok gs.flatten := by
  induction l generalizing gs with
  | nil =>
      simp only [List.mapM_nil, pure] at h
      cases h
      rfl
  | cons c cs ih =>
      rw [List.mapM_cons] at h
      cases hc : parse_criteria c with
      | error e => rw [hc] at h; simp at h
      | ok g =>
          rw [hc] at h
          cases hcs : cs.mapM parse_criteria with
          | error e => rw [hcs] at h; simp at h
          | ok gs2 =>
              rw [hcs] at h
              simp only [exceptBind_ok, bind_pure_comp, exceptMap_ok, Except.ok.injEq] at h
              subst h
              rw [concatCompile, hc, ih hcs]
              simp

theorem parse_condition_leaf_ne_nil {k : String} {v : Py} {t : List Py}
    (hk : k ∈ leafKeys) (h : parse_condition [(k, v)] = Except.ok t) : t ≠ [] := by
  have hcases : k = "from" ∨ k = "to" ∨ k = "cc" ∨ k = "subject" ∨
      k = "since" ∨ k = "before" := by simpa [leafKeys] using hk
  rcases hcases with rfl | rfl | rfl | rfl | rfl | rfl
  · simp only [parse_condition, lookup, String.reduceEq, reduceIte, Except.ok.injEq] at h
    subst h; simp
  · simp only [parse_condition, lookup, String.reduceEq, reduceIte, Except.ok.injEq] at h
    subst h; simp
  · simp only [parse_condition, lookup, String.reduceEq, reduceIte, Except.ok.injEq] at h
    subst h; simp
  · simp only [parse_condition, lookup, String.reduceEq, reduceIte, Except.ok.injEq] at h
    subst h; simp
  · simp only [parse_condition, lookup, String.reduceEq, reduceIte] at h
    cases hd : format_date_py v with
    | error e => rw [hd] at h; simp at h
    | ok d =>
        rw [hd] at h
        simp only [exceptBind_ok, Except.ok.injEq] at h
        subst h; simp
  · simp only [parse_condition, lookup, String.reduceEq, reduceIte] at h
    cases hd : format_date_py v with
    | error e => rw [hd] at h; simp at h
    | ok d =>
        rw [hd] at h
        simp only [exceptBind_ok, Except.ok.injEq] at h
        subst h; simp

theorem leafLoop_ok_nil {entries : List (String × Py)}
    (h : ∀ kv ∈ entries, kv.1 ∉ leafKeys) : leafLoop entries = Except.ok [] := by
  induction entries with
  | nil => rfl
  | cons kv rest ih =>
      obtain ⟨k, v⟩ := kv
      have ihr : leafLoop rest = Except.ok [] := ih fun kv hkv => h kv (by simp [hkv])
      rw [leafLoop]
      by_cases hk : k = "or" ∨ k = "not"
      · rw [if_pos hk]
        show (Except.ok [] >>= _) = _
        rw [exceptBind_ok, ihr]
        rfl
      · rw [if_neg hk,
          parse_condition_no_leaf (by
            intro kv hkv
            simp only [List.mem_singleton] at hkv
            subst hkv
            exact h (k, v) (by simp))]
        rw [exceptBind_ok, ihr]
        rfl

theorem parse_criteria_dict_eq {entries : List (String × Py)} {base nt : List Py}
    {gs : List (List Py)}
    (hb : leafLoop entries = Except.ok base)
    (hn : notPart entries = Except.ok nt)
    (ho : orPart entries = Except.ok gs)
    (hne : combineOr (base ++ nt) gs ≠ []) :
    parse_criteria (Py.dict entries) = Except.ok (combineOr (base ++ nt) gs) := by
  have hne' : ¬((combineOr (base ++ nt) gs).isEmpty = true) := by
    simpa [List.isEmpty_iff] using hne
  rw [parse_criteria, hb, exceptBind_ok, hn, exceptBind_ok, ho, exceptBind_ok,
    if_neg hne']

theorem dsl_to_search_eq {dsl : Py} {ts : List Py}
    (h : parse_criteria dsl = Except.ok ts) (hne : ts ≠ []) :
    dsl_to_search dsl = Except.ok ts := by
  have hne' : ¬(ts.isEmpty = true) := by simpa [List.isEmpty_iff] using hne
  rw [dsl_to_search, h, exceptBind_ok, if_neg hne']

/-- The leaf loop emits, in dict insertion order, the `parse_condition`
contribution of every entry whose key is not "or"/"not": its result is the
order-preserving concatenation of the per-entry token pairs. -/
theorem leafLoop_eq_mapM {entries : List (String × Py)} {ts : List (List Py)}
    (hts : (leafEntries entries).mapM (fun kv => parse_condition [kv]) = Except.ok ts) :
    leafLoop entries = Except.ok ts.flatten := by
  induction entries generalizing ts with
  | nil =>
      simp only [leafEntries, List.filter_nil, List.mapM_nil, pure] at hts
      cases hts
      rfl
  | cons kv rest ih =>
      obtain ⟨k, v⟩ := kv
      by_cases hk : k = "or" ∨ k = "not"
      · have hf : leafEntries ((k, v) :: rest) = leafEntries rest := by
          rcases hk with rfl | rfl <;> simp [leafEntries, List.filter_cons]
        rw [hf] at hts
        rw [leafLoop, if_pos hk]
        show (Except.ok [] >>= _) = _
        rw [exceptBind_ok, ih hts]
        rfl
      · have h1 : ¬(k = "or") := fun h => hk (Or.inl h)
        have h2 : ¬(k = "not") := fun h => hk (Or.inr h)
        have hf : leafEntries ((k, v) :: rest) = (k, v) :: leafEntries rest := by
          simp [leafEntries, List.filter_cons, h1, h2]
        rw [hf, List.mapM_cons] at hts
        cases hpc : parse_condition [(k, v)] with
        | error e => rw [hpc] at hts; simp at hts
        | ok t0 =>
            rw [hpc] at hts
            cases hrest : (leafEntries rest).mapM (fun kv => parse_condition [kv]) with
            | error e => rw [hrest] at hts; simp at hts
            | ok ts2 =>
                rw [hrest] at hts
                simp only [exceptBind_ok, bind_pure_comp, exceptMap_ok,
                  Except.ok.injEq] at hts
                subst hts
                rw [leafLoop, if_neg hk, hpc, exceptBind_ok, ih hrest]
                simp

/-- Claim C1, amended: for a filter expression with any number of leaf
fields at the same level — also alongside or/not groups — the compiled
token sequence lists the leaf opcode/operand pairs in the order the keys
appear in the input expression (dict insertion order): the leaf block is
the in-order concatenation of each non-or/not entry contribution, and the
fixed order from, to, cc, subject, since, before only selects each key
opcode, it never reorders the output. -/
theorem c1_amended (entries : List (String × Py)) (ts : List (List Py))
    (nt : List Py) (gs : List (List Py))
    (hts : (leafEntries entries).mapM (fun kv => parse_condition [kv]) = Except.ok ts)
    (hn : notPart entries = Except.ok nt)
    (ho : orPart entries = Except.ok gs)
    (hne : ts.flatten ≠ []) :
    dsl_to_search (Py.dict entries) = Except.ok (orCombineSpec ts.flatten nt gs) := by
  have hb : leafLoop entries = Except.ok ts.flatten := leafLoop_eq_mapM hts
  have hcomb : combineOr (ts.flatten ++ nt) gs ≠ [] := combineOr_ne_nil gs (by simp [hne])
  have hpc := parse_criteria_dict_eq hb hn ho hcomb
  have heq : combineOr (ts.flatten ++ nt) gs = orCombineSpec ts.flatten nt gs := by
    match gs with
    | [] => rfl
    | [g] => rfl
    | g0 :: g1 :: rest => simp [combineOr, orCombineSpec, List.append_assoc]
  rw [heq] at hpc hcomb
  exact dsl_to_search_eq hpc hcomb

theorem c1_amended_witness :
    ((leafEntries [("subject", Py.str "y"), ("from", Py.str "x"), ("cc", Py.str "z")]).mapM
        (fun kv => parse_condition [kv]) =
      Except.ok [[Py.str "SUBJECT", Py.str "y"], [Py.str "FROM", Py.str "x"],
        [Py.str "CC", Py.str "z"]]) ∧
    (notPart [("subject", Py.str "y"), ("from", Py.str "x"), ("cc", Py.str "z")] =
      Except.ok []) ∧
    (orPart [("subject", Py.str "y"), ("from", Py.str "x"), ("cc", Py.str "z")] =
      Except.ok []) ∧
    (([[Py.str "SUBJECT", Py.str "y"], [Py.str "FROM", Py.str "x"],
        [Py.str "CC", Py.str "z"]] : List (List Py)).flatten ≠ []) ∧
    dsl_to_search
        (Py.dict [("subject", Py.str "y"), ("from", Py.str "x"), ("cc", Py.str "z")]) =
      Except.ok (orCombineSpec
        ([[Py.str "SUBJECT", Py.str "y"], [Py.str "FROM", Py.str "x"],
          [Py.str "CC", Py.str "z"]] : List (List Py)).flatten [] []) :=
  ⟨rfl, rfl, rfl, by simp,
    c1_amended [("subject", Py.str "y"), ("from", Py.str "x"), ("cc", Py.str "z")]
      [[Py.str "SUBJECT", Py.str "y"], [Py.str "FROM", Py.str "x"], [Py.str "CC", Py.str "z"]]
      [] [] rfl rfl rfl (by simp)⟩

/-- Claim C7: a `not` list compiles to the concatenation of the compiled
tokens of all its sub-expressions, merged into one group, with a single NOT
opcode applied once to the whole group. -/
theorem c7 (l : List Py) (gs : List (List Py))
    (h : l.mapM parse_criteria = Except.ok gs) (hne : gs.flatten ≠ []) :
    dsl_to_search (Py.dict [("not", Py.list l)]) =
      Except.ok [Py.str "NOT", Py.list gs.flatten] := by
  have hc : concatCompile l = Except.ok gs.flatten := concatCompile_eq h
  have hb : leafLoop [("not", Py.list l)] = Except.ok [] := by
    rw [leafLoop, if_pos (Or.inr rfl)]
    show (Except.ok [] >>= _) = _
    rw [exceptBind_ok, leafLoop]
    rfl
  have hn : notPart [("not", Py.list l)] = Except.ok [Py.str "NOT", Py.list gs.flatten] := by
    rw [notPart, if_pos rfl, notValue, hc, exceptBind_ok]
    simp [List.isEmpty_iff, hne]
  have ho : orPart [("not", Py.list l)] = Except.ok [] :=
    orPart_ok_nil (by simp)
  have hres : combineOr ([] ++ [Py.str "NOT", Py.list gs.flatten]) [] =
      [Py.str "NOT", Py.list gs.flatten] := by simp [combineOr]
  have hpc := parse_criteria_dict_eq hb hn ho
    (combineOr_ne_nil [] (by simp))
  rw [hres] at hpc
  exact dsl_to_search_eq hpc (by simp)

theorem c7_witness :
    ([Py.dict [("from", Py.str "x")], Py.dict [("subject", Py.str "y")]].mapM parse_criteria =
      Except.ok [[Py.str "FROM", Py.str "x"], [Py.str "SUBJECT", Py.str "y"]]) ∧
    ([[Py.str "FROM", Py.str "x"], [Py.str "SUBJECT", Py.str "y"]] : List (List Py)).flatten ≠ [] ∧
    dsl_to_search (Py.dict [("not",
        Py.list [Py.dict [("from", Py.str "x")], Py.dict [("subject", Py.str "y")]])]) =
      Except.ok [Py.str "NOT",
        Py.list ([[Py.str "FROM", Py.str "x"], [Py.str "SUBJECT", Py.str "y"]] :
          List (List Py)).flatten] :=
  ⟨rfl, by simp, c7 _ _ rfl (by simp)⟩

/-- Claim C8: an expression with no recognized keys (unknown keys are
ignored; the empty expression is the special case with no keys at all)
compiles at top level to exactly the single ALL token, while the empty
expression compiled at a nested level (by `parse_criteria`) contributes the
empty token sequence, not the ALL token. -/
theorem c8 (entries : List (String × Py))
    (h : ∀ kv ∈ entries, kv.1 ∉ recognizedKeys) :
    dsl_to_search (Py.dict entries) = Except.ok [Py.str "ALL"] ∧
    parse_criteria (Py.dict []) = Except.ok [] := by
  refine ⟨?_, rfl⟩
  have hleaf : ∀ kv ∈ entries, kv.1 ∉ leafKeys := fun kv hkv hmem =>
    h kv hkv (by simp [recognizedKeys, hmem])
  have hb : leafLoop entries = Except.ok [] := leafLoop_ok_nil hleaf
  have hn : notPart entries = Except.ok [] :=
    notPart_ok_nil fun kv hkv he => h kv hkv (by simp [recognizedKeys, he])
  have ho : orPart entries = Except.ok [] :=
    orPart_ok_nil fun kv hkv he => h kv hkv (by simp [recognizedKeys, he])
  have hpc : parse_criteria (Py.dict entries) = Except.ok [] := by
    rw [parse_criteria, hb, exceptBind_ok, hn, exceptBind_ok, ho, exceptBind_ok]
    show (if (combineOr ([] ++ []) []).isEmpty then _ else _) = _
    simp only [combineOr, List.append_nil, List.isEmpty_nil, if_true]
    exact parse_condition_no_leaf hleaf
  rw [dsl_to_search, hpc, exceptBind_ok]
  rfl

theorem c8_witness :
    (∀ kv ∈ [("x-unknown", Py.str "v")], kv.1 ∉ recognizedKeys) ∧
    dsl_to_search (Py.dict [("x-unknown", Py.str "v")]) = Except.ok [Py.str "ALL"] ∧
    parse_criteria (Py.dict []) = Except.ok [] :=
  ⟨by decide, (c8 [("x-unknown", Py.str "v")] (by decide)).1,
    (c8 [("x-unknown", Py.str "v")] (by decide)).2⟩

/-- Claim C2, amended: tokens are concatenated in the fixed order leaf
fields, then `not` group, then `or` contribution whenever the `or` list
yields at most two compiled groups; with three or more groups, each group
beyond the second re-wraps the entire accumulated result — leaf and `not`
tokens included — as the left operand of a new OR
(`result = ["OR"] + result + group`), so the leaf tokens no longer lead. -/
theorem c2_amended (entries : List (String × Py)) (base nt : List Py)
    (gs : List (List Py))
    (hb : leafLoop entries = Except.ok base)
    (hn : notPart entries = Except.ok nt)
    (ho : orPart entries = Except.ok gs)
    (hbase : base ≠ []) :
    dsl_to_search (Py.dict entries) = Except.ok (orCombineSpec base nt gs) := by
  have hcomb : combineOr (base ++ nt) gs ≠ [] := combineOr_ne_nil gs (by simp [hbase])
  have hpc := parse_criteria_dict_eq hb hn ho hcomb
  have heq : combineOr (base ++ nt) gs = orCombineSpec base nt gs := by
    match gs with
    | [] => rfl
    | [g] => rfl
    | g0 :: g1 :: rest => simp [combineOr, orCombineSpec, List.append_assoc]
  rw [heq] at hpc hcomb
  exact dsl_to_search_eq hpc hcomb

theorem c2_amended_witness :
    (leafLoop [("from", Py.str "a"),
        ("or", Py.list [Py.dict [("to", Py.str "b")], Py.dict [("cc", Py.str "c")],
                        Py.dict [("subject", Py.str "d")]])] =
      Except.ok [Py.str "FROM", Py.str "a"]) ∧
    (notPart [("from", Py.str "a"),
        ("or", Py.list [Py.dict [("to", Py.str "b")], Py.dict [("cc", Py.str "c")],
                        Py.dict [("subject", Py.str "d")]])] = Except.ok []) ∧
    (orPart [("from", Py.str "a"),
        ("or", Py.list [Py.dict [("to", Py.str "b")], Py.dict [("cc", Py.str "c")],
                        Py.dict [("subject", Py.str "d")]])] =
      Except.ok [[Py.str "TO", Py.str "b"], [Py.str "CC", Py.str "c"],
        [Py.str "SUBJECT", Py.str "d"]]) ∧
    ([Py.str "FROM", Py.str "a"] ≠ ([] : List Py)) ∧
    dsl_to_search (Py.dict [("from", Py.str "a"),
        ("or", Py.list [Py.dict [("to", Py.str "b")], Py.dict [("cc", Py.str "c")],
                        Py.dict [("subject", Py.str "d")]])]) = Except.ok
      (orCombineSpec [Py.str "FROM", Py.str "a"] []
        [[Py.str "TO", Py.str "b"], [Py.str "CC", Py.str "c"],
         [Py.str "SUBJECT", Py.str "d"]]) :=
  ⟨rfl, rfl, rfl, by simp,
    c2_amended
      [("from", Py.str "a"),
       ("or", Py.list [Py.dict [("to", Py.str "b")], Py.dict [("cc", Py.str "c")],
                       Py.dict [("subject", Py.str "d")]])]
      [Py.str "FROM", Py.str "a"] []
      [[Py.str "TO", Py.str "b"], [Py.str "CC", Py.str "c"], [Py.str "SUBJECT", Py.str "d"]]
      rfl rfl rfl (by simp)⟩

/-! ## Helper lemmas about body selection -/

theorem firstOfType_cons_attachment {p : MimePart} (ct : String)
    (rest : List MimePart) (h : is_attachment p = true) :
    firstOfType ct (p :: rest) = firstOfType ct rest := by
  simp [firstOfType, List.filter_cons, h]

theorem firstOfType_cons_match {p : MimePart} (ct : String) (rest : List MimePart)
    (ha : is_attachment p = false) (hct : p.contentType = ct) :
    firstOfType ct (p :: rest) = some p.text := by
  rw [firstOfType, List.filter_cons]
  simp only [ha, Bool.not_false, if_true]
  rw [List.find?_cons_of_pos _ (by simp [hct])]
  rfl

theorem firstOfType_cons_skip {p : MimePart} (ct : String) (rest : List MimePart)
    (ha : is_attachment p = false) (hct : p.contentType ≠ ct) :
    firstOfType ct (p :: rest) = firstOfType ct rest := by
  rw [firstOfType, List.filter_cons]
  simp only [ha, Bool.not_false, if_true]
  rw [List.find?_cons_of_neg _ (by simp [hct])]
  rfl

theorem bodyScan_eq (parts : List MimePart) (tp hp : Option String) :
    bodyScan parts tp hp =
      (tp.or (firstOfType "text/plain" parts), hp.or (firstOfType "text/html" parts)) := by
  induction parts generalizing tp hp with
  | nil => simp [bodyScan, firstOfType]
  | cons p rest ih =>
      by_cases hatt : is_attachment p
      · rw [bodyScan, if_pos hatt, ih,
          firstOfType_cons_attachment _ _ hatt, firstOfType_cons_attachment _ _ hatt]
      · have hatt' : is_attachment p = false := by simpa using hatt
        by_cases hplain : p.contentType = "text/plain"
        · have hnh : p.contentType ≠ "text/html" := by rw [hplain]; decide
          cases tp with
          | none =>
              rw [bodyScan, if_neg hatt, if_pos (by simp [hplain]), ih,
                firstOfType_cons_match _ _ hatt' hplain,
                firstOfType_cons_skip _ _ hatt' hnh]
              simp
          | some t =>
              rw [bodyScan, if_neg hatt, if_neg (by simp), if_neg (by simp [hnh]), ih,
                firstOfType_cons_skip _ _ hatt' hnh,
                firstOfType_cons_match _ _ hatt' hplain]
              simp
        · by_cases hhtml : p.contentType = "text/html"
          · cases hp with
            | none =>
                rw [bodyScan, if_neg hatt, if_neg (by simp [hplain]),
                  if_pos (by simp [hhtml]), ih,
                  firstOfType_cons_match _ _ hatt' hhtml,
                  firstOfType_cons_skip _ _ hatt' hplain]
                simp
            | some t =>
                rw [bodyScan, if_neg hatt, if_neg (by simp [hplain]), if_neg (by simp), ih,
                  firstOfType_cons_skip _ _ hatt' hplain,
                  firstOfType_cons_match _ _ hatt' hhtml]
                simp
          · rw [bodyScan, if_neg hatt, if_neg (by simp [hplain]), if_neg (by simp [hhtml]),
              ih, firstOfType_cons_skip _ _ hatt' hplain,
              firstOfType_cons_skip _ _ hatt' hhtml]

/-- The body-selection rule `get_email_body` implements: the first
non-attachment plain-text payload when it is non-empty, otherwise the first
non-attachment html payload when present (the empty string when that is
empty or missing) — candidates are tested by Python truthiness. -/
theorem get_email_body_char (msg : Email) :
    get_email_body msg =
      match firstPlainPart msg with
      | some t => if t = "" then (firstHtmlPart msg).getD "" else t
      | none => (firstHtmlPart msg).getD "" := by
  rw [get_email_body, firstPlainPart, firstHtmlPart]
  rw [show bodyScan msg.parts none none =
    ((firstOfType "text/plain" msg.parts), (firstOfType "text/html" msg.parts)) by
      rw [bodyScan_eq]; simp]
  cases firstOfType "text/plain" msg.parts with
  | none =>
      cases firstOfType "text/html" msg.parts with
      | none => rfl
      | some h =>
          by_cases hh : h = "" <;> simp [pyStrOr, hh]
  | some t =>
      cases firstOfType "text/html" msg.parts with
      | none => simp [pyStrOr]
      | some h =>
          by_cases hh : h = "" <;> by_cases ht : t = "" <;> simp [pyStrOr, hh, ht]

/-- Claim C4, amended: the reconstructor's selected body is the first
non-attachment text/plain payload when that payload is non-empty; an empty
plain-text payload (and a missing plain part alike) falls through to the
first non-attachment text/html payload, and to the empty string when that
is missing or empty — existence alone does not make the plain candidate
win, it is tested by truthiness.  Plain text still beats html appearing
earlier, and only the first part of each type counts. -/
theorem c4_amended (msg : Email) :
    get_email_body msg =
      match firstPlainPart msg with
      | some t => if t = "" then (firstHtmlPart msg).getD "" else t
      | none => (firstHtmlPart msg).getD "" :=
  get_email_body_char msg

/-- Claim C10: when the first non-attachment text/plain part decodes to the
empty string, the selected body is the first non-attachment text/html
part's decoded text if one exists and the empty string otherwise; the
plain-text candidate is tested by truthiness, so the empty plain candidate
is never returned as the found body. -/
theorem c10 (msg : Email) (h : firstPlainPart msg = some "") :
    get_email_body msg = (firstHtmlPart msg).getD "" := by
  rw [get_email_body_char, h]
  simp

theorem c10_witness :
    firstPlainPart c10msg = some "" ∧
    get_email_body c10msg = (firstHtmlPart c10msg).getD "" :=
  ⟨rfl, c10 c10msg rfl⟩

/-! ## Helper lemmas about the fetch tool -/

theorem fetch_cons_splitFail {mid : String} (rest : List String)
    (store : String → Nat → Option Email) (hs : split1At mid = none) :
    fetch (mid :: rest) store = Except.error "ValueError: not enough values to unpack" := by
  rw [fetch, hs]

theorem fetch_cons_intFail {mid numStr folder : String} (rest : List String)
    (store : String → Nat → Option Email) (hs : split1At mid = some (numStr, folder))
    (hn : digitsToNat numStr.toList = none) :
    fetch (mid :: rest) store = Except.error "ValueError: invalid literal for int" := by
  rw [fetch, hs]
  dsimp only
  rw [hn]

theorem fetch_cons_keyError {mid numStr folder : String} {n : Nat} (rest : List String)
    (store : String → Nat → Option Email) (hs : split1At mid = some (numStr, folder))
    (hn : digitsToNat numStr.toList = some n) (hm : store folder n = none) :
    fetch (mid :: rest) store = Except.error ("KeyError: " ++ toString n) := by
  rw [fetch, hs]
  dsimp only
  rw [hn]
  dsimp only
  rw [hm]

theorem fetch_cons_found {mid numStr folder : String} {n : Nat} {em : Email}
    (rest : List String) (store : String → Nat → Option Email)
    (hs : split1At mid = some (numStr, folder))
    (hn : digitsToNat numStr.toList = some n) (hm : store folder n = some em) :
    fetch (mid :: rest) store =
      (fetch rest store).map (fun ms => (mid, get_email_body em) :: ms) := by
  rw [fetch, hs]
  dsimp only
  rw [hn]
  dsimp only
  rw [hm]
  cases hr : fetch rest store <;> rfl

theorem fetch_append (l1 l2 : List String) (store : String → Nat → Option Email) :
    fetch (l1 ++ l2) store = (do
      let m1 ← fetch l1 store
      let m2 ← fetch l2 store
      pure (m1 ++ m2)) := by
  induction l1 with
  | nil =>
      show fetch l2 store = (Except.ok [] >>= _)
      rw [exceptBind_ok]
      cases hf : fetch l2 store <;> simp
  | cons mid rest ih =>
      show fetch (mid :: (rest ++ l2)) store = _
      cases hs : split1At mid with
      | none =>
          rw [fetch_cons_splitFail _ _ hs, fetch_cons_splitFail _ _ hs]
          rfl
      | some p =>
          obtain ⟨numStr, folder⟩ := p
          cases hn : digitsToNat numStr.toList with
          | none =>
              rw [fetch_cons_intFail _ _ hs hn, fetch_cons_intFail _ _ hs hn]
              rfl
          | some n =>
              cases hm : store folder n with
              | none =>
                  rw [fetch_cons_keyError _ _ hs hn hm, fetch_cons_keyError _ _ hs hn hm]
                  rfl
              | some em =>
                  rw [fetch_cons_found _ _ hs hn hm, fetch_cons_found _ _ hs hn hm, ih]
                  cases hr : fetch rest store <;> cases hl2 : fetch l2 store <;>
                    simp [Except.map]

/-- Claim C3, amended: a requested id whose numeric part does not exist in
its folder makes the whole `fetch` call fail with the KeyError — ids before
it in the same call are looked up but their results are discarded, ids
after it are never looked up, and no mapping is returned at all. -/
theorem c3_amended (pre post : List String) (m : List (String × String))
    (idStr numStr folder : String) (n : Nat) (store : String → Nat → Option Email)
    (hsplit : split1At idStr = some (numStr, folder))
    (hnum : digitsToNat numStr.toList = some n)
    (hmiss : store folder n = none)
    (hpre : fetch pre store = Except.ok m) :
    fetch (pre ++ idStr :: post) store = Except.error ("KeyError: " ++ toString n) := by
  rw [fetch_append, hpre, exceptBind_ok, fetch_cons_keyError post store hsplit hnum hmiss]
  rfl

theorem c3_amended_witness :
    split1At "43@INBOX" = some ("43", "INBOX") ∧
    digitsToNat ("43" : String).toList = some 43 ∧
    c3store "INBOX" 43 = none ∧
    fetch ["42@INBOX"] c3store = Except.ok [("42@INBOX", "hello")] ∧
    fetch (["42@INBOX"] ++ "43@INBOX" :: []) c3store =
      Except.error ("KeyError: " ++ toString 43) :=
  ⟨rfl, rfl, rfl, rfl,
    c3_amended ["42@INBOX"] [] [("42@INBOX", "hello")] "43@INBOX" "43" "INBOX" 43
      c3store rfl rfl rfl rfl⟩

/-! ## Claims about the search orchestrator -/

/-- Claim C5: when neither headers nor body is requested (fields absent,
empty, or with both flags false) or when the search matched no ids, the
operation returns the empty messages list and issues no fetch call to the
transport session. -/
theorem c5 (folder : String) (criteria : Py) (fields : Option (List (String × Bool)))
    (srv : Server) (toks : List Py)
    (hc : dsl_to_search criteria = Except.ok toks)
    (h : ((lookupStr (fields.getD []) "headers").getD false = false ∧
          (lookupStr (fields.getD []) "body").getD false = false) ∨
         srv.searchResult = []) :
    (search folder criteria fields srv).2 = Except.ok [] ∧
    (search folder criteria fields srv).1.filter isFetchEv = [] := by
  unfold search
  rw [hc]
  dsimp only
  rcases h with ⟨hh, hb⟩ | hids
  · rw [hh, hb]
    simp only [Bool.or_false, Bool.not_false, Bool.true_or, if_true]
    exact ⟨trivial, by simp [isFetchEv]⟩
  · rw [hids]
    simp only [List.isEmpty_nil, Bool.or_true, if_true]
    exact ⟨trivial, by simp [isFetchEv]⟩

theorem c5_witness :
    (dsl_to_search (Py.dict []) = Except.ok [Py.str "ALL"]) ∧
    (((lookupStr ((none : Option (List (String × Bool))).getD []) "headers").getD false = false ∧
      (lookupStr ((none : Option (List (String × Bool))).getD []) "body").getD false = false) ∨
     (Server.mk [1, 2, 3] (fun _ => emptyEmail)).searchResult = []) ∧
    (search "INBOX" (Py.dict []) none (Server.mk [1, 2, 3] (fun _ => emptyEmail))).2 =
      Except.ok [] ∧
    (search "INBOX" (Py.dict []) none
      (Server.mk [1, 2, 3] (fun _ => emptyEmail))).1.filter isFetchEv = [] :=
  ⟨rfl, Or.inl ⟨rfl, rfl⟩,
    (c5 "INBOX" (Py.dict []) none (Server.mk [1, 2, 3] (fun _ => emptyEmail))
      [Py.str "ALL"] rfl (Or.inl ⟨rfl, rfl⟩)).1,
    (c5 "INBOX" (Py.dict []) none (Server.mk [1, 2, 3] (fun _ => emptyEmail))
      [Py.str "ALL"] rfl (Or.inl ⟨rfl, rfl⟩)).2⟩

/-- Claim C6: with 120 matching ids (and the body requested so that a fetch
happens), the throttle-relevant trace is exactly fetch, pause, fetch,
pause, fetch — three consecutive batches of sizes 50, 50 and 20, with the
fixed 0.5-unit pause after every batch except the last and never after the
final batch. -/
theorem c6 (folder : String) (criteria : Py) (fields : Option (List (String × Bool)))
    (srv : Server) (toks : List Py)
    (hc : dsl_to_search criteria = Except.ok toks)
    (hb : (lookupStr (fields.getD []) "body").getD false = true)
    (hlen : srv.searchResult.length = 120) :
    (search folder criteria fields srv).1.filter isThrottleEv =
      [Ev.fetchCall (srv.searchResult.take 50) ["RFC822"],
       Ev.sleepFor SLEEP_TIME,
       Ev.fetchCall ((srv.searchResult.drop 50).take 50) ["RFC822"],
       Ev.sleepFor SLEEP_TIME,
       Ev.fetchCall ((srv.searchResult.drop 100).take 50) ["RFC822"]] ∧
    (srv.searchResult.take 50).length = 50 ∧
    ((srv.searchResult.drop 50).take 50).length = 50 ∧
    ((srv.searchResult.drop 100).take 50).length = 20 ∧
    SLEEP_TIME = 1 / 2 := by
  have hne : ¬(srv.searchResult.isEmpty = true) := by
    intro hemp
    rw [List.isEmpty_iff] at hemp
    rw [hemp] at hlen
    simp at hlen
  have e3 : fetchLoop srv.searchResult ["RFC822"] 150 = [] := by
    rw [fetchLoop, if_neg (by omega)]
  have e2 : fetchLoop srv.searchResult ["RFC822"] 100 =
      [Ev.fetchCall ((srv.searchResult.drop 100).take 50) ["RFC822"]] := by
    rw [fetchLoop]
    simp only [BATCH_SIZE]
    rw [if_pos (by omega), if_neg (by omega)]
    simp [e3]
  have e1 : fetchLoop srv.searchResult ["RFC822"] 50 =
      [Ev.fetchCall ((srv.searchResult.drop 50).take 50) ["RFC822"],
       Ev.sleepFor SLEEP_TIME,
       Ev.fetchCall ((srv.searchResult.drop 100).take 50) ["RFC822"]] := by
    rw [fetchLoop]
    simp only [BATCH_SIZE]
    rw [if_pos (by omega), if_pos (by omega)]
    simp [e2]
  have e0 : fetchLoop srv.searchResult ["RFC822"] 0 =
      [Ev.fetchCall (srv.searchResult.take 50) ["RFC822"],
       Ev.sleepFor SLEEP_TIME,
       Ev.fetchCall ((srv.searchResult.drop 50).take 50) ["RFC822"],
       Ev.sleepFor SLEEP_TIME,
       Ev.fetchCall ((srv.searchResult.drop 100).take 50) ["RFC822"]] := by
    rw [fetchLoop]
    simp only [BATCH_SIZE]
    rw [if_pos (by omega), if_pos (by omega)]
    simp [e1]
  refine ⟨?_, by simp [hlen], by simp [hlen], by simp [hlen], by norm_num [SLEEP_TIME]⟩
  unfold search
  rw [hc]
  dsimp only
  rw [hb]
  simp only [Bool.or_true, Bool.not_true, Bool.false_or]
  rw [if_neg hne]
  dsimp only
  simp only [if_true]
  rw [List.filter_append, e0]
  simp [isThrottleEv]

theorem c6_witness :
    (dsl_to_search (Py.dict []) = Except.ok [Py.str "ALL"]) ∧
    ((lookupStr ((some [("body", true)] : Option (List (String × Bool))).getD [])
        "body").getD false = true) ∧
    ((Server.mk (List.range 120) (fun _ => emptyEmail)).searchResult.length = 120) ∧
    ((search "INBOX" (Py.dict []) (some [("body", true)])
        (Server.mk (List.range 120) (fun _ => emptyEmail))).1.filter isThrottleEv =
      [Ev.fetchCall ((List.range 120).take 50) ["RFC822"],
       Ev.sleepFor SLEEP_TIME,
       Ev.fetchCall (((List.range 120).drop 50).take 50) ["RFC822"],
       Ev.sleepFor SLEEP_TIME,
       Ev.fetchCall (((List.range 120).drop 100).take 50) ["RFC822"]] ∧
     ((List.range 120).take 50).length = 50 ∧
     (((List.range 120).drop 50).take 50).length = 50 ∧
     (((List.range 120).drop 100).take 50).length = 20 ∧
     SLEEP_TIME = 1 / 2) :=
  ⟨rfl, rfl, by simp,
    c6 "INBOX" (Py.dict []) (some [("body", true)])
      (Server.mk (List.range 120) (fun _ => emptyEmail)) [Py.str "ALL"]
      rfl rfl (by simp)⟩

/-! ## Compile failures from malformed dates (claim C9) -/

theorem bor_elim {a b : Bool} (h : (a || b) = true) : a = true ∨ b = true := by
  cases a
  · exact Or.inr (by simpa using h)
  · exact Or.inl rfl

theorem band_elim {a b : Bool} (h : (a && b) = true) : a = true ∧ b = true := by
  cases a
  · simp at h
  · exact ⟨rfl, by simpa using h⟩

@[simp] theorem exceptPure {ε α : Type} (a : α) :
    (pure a : Except ε α) = Except.ok a := rfl

theorem badDateValue_spec {v : Py} (h : badDateValue v = true) :
    ∃ s, v = Py.str s ∧ format_date s = none := by
  cases v with
  | str s =>
      exact ⟨s, rfl, Option.isNone_iff_eq_none.mp (by simpa [badDateValue] using h)⟩
  | list l => simp [badDateValue] at h
  | dict d => simp [badDateValue] at h

theorem leafBadDate_error {entries : List (String × Py)}
    (h : leafBadDate entries = true) : ∃ e, leafLoop entries = Except.error e := by
  induction entries with
  | nil => simp [leafBadDate] at h
  | cons kv rest ih =>
      obtain ⟨k, v⟩ := kv
      rw [leafBadDate] at h
      rw [leafLoop]
      by_cases hk : k = "or" ∨ k = "not"
      · have hnb : (k == "since" || k == "before") = false := by
          rcases hk with rfl | rfl <;> decide
        rw [hnb] at h
        simp only [Bool.false_and, Bool.false_or] at h
        obtain ⟨e, he⟩ := ih h
        refine ⟨e, ?_⟩
        rw [if_pos hk]
        show (Except.ok [] >>= _) = _
        rw [exceptBind_ok, he]
        rfl
      · rw [if_neg hk]
        cases hpc : parse_condition [(k, v)] with
        | error e => exact ⟨e, rfl⟩
        | ok tk =>
            simp only [exceptBind_ok]
            rcases bor_elim h with hhead | hrest
            · exfalso
              obtain ⟨h1, h2⟩ := band_elim hhead
              obtain ⟨s, rfl, hfd⟩ := badDateValue_spec h2
              rcases bor_elim h1 with hks | hkb
              · have hk' : k = "since" := by simpa using hks
                subst hk'
                simp only [parse_condition, lookup, String.reduceEq, reduceIte,
                  format_date_py, hfd, exceptBind_error] at hpc
                exact Except.noConfusion hpc
              · have hk' : k = "before" := by simpa using hkb
                subst hk'
                simp only [parse_condition, lookup, String.reduceEq, reduceIte,
                  format_date_py, hfd, exceptBind_error] at hpc
                exact Except.noConfusion hpc
            · obtain ⟨e, he⟩ := ih hrest
              refine ⟨e, ?_⟩
              rw [he]
              rfl

theorem listBadDate_concat_error {l : List Py}
    (hpt : ∀ c ∈ l, criteriaHasBadDate c = true → ∃ e, parse_criteria c = Except.error e)
    (h : listBadDate l = true) : ∃ e, concatCompile l = Except.error e := by
  induction l with
  | nil => simp [listBadDate] at h
  | cons c cs ih =>
      rw [listBadDate] at h
      rw [concatCompile]
      cases hc : parse_criteria c with
      | error e => exact ⟨e, rfl⟩
      | ok g =>
          simp only [exceptBind_ok]
          rcases bor_elim h with hcbad | hrest
          · obtain ⟨e, he⟩ := hpt c (by simp) hcbad
            rw [he] at hc
            cases hc
          · obtain ⟨e, he⟩ := ih (fun c hcm => hpt c (by simp [hcm])) hrest
            refine ⟨e, ?_⟩
            rw [he]
            rfl

theorem listBadDate_orGroups_error {l : List Py}
    (hpt : ∀ c ∈ l, criteriaHasBadDate c = true → ∃ e, parse_criteria c = Except.error e)
    (h : listBadDate l = true) : ∃ e, orGroups l = Except.error e := by
  induction l with
  | nil => simp [listBadDate] at h
  | cons c cs ih =>
      rw [listBadDate] at h
      rw [orGroups]
      cases hc : parse_criteria c with
      | error e => exact ⟨e, rfl⟩
      | ok g =>
          simp only [exceptBind_ok]
          rcases bor_elim h with hcbad | hrest
          · obtain ⟨e, he⟩ := hpt c (by simp) hcbad
            rw [he] at hc
            cases hc
          · obtain ⟨e, he⟩ := ih (fun c hcm => hpt c (by simp [hcm])) hrest
            refine ⟨e, ?_⟩
            rw [he]
            rfl

theorem notBadDate_error {entries : List (String × Py)}
    (hpt : ∀ c : Py, sizeOf c < sizeOf entries → criteriaHasBadDate c = true →
      ∃ e, parse_criteria c = Except.error e)
    (h : notBadDate entries = true) : ∃ e, notPart entries = Except.error e := by
  induction entries with
  | nil => simp [notBadDate] at h
  | cons kv rest ih =>
      obtain ⟨k, v⟩ := kv
      rw [notBadDate] at h
      rw [notPart]
      by_cases hk : k = "not"
      · rw [if_pos hk] at h ⊢
        cases v with
        | list l =>
            have hl : listBadDate l = true := by simpa [badListValue] using h
            obtain ⟨e, he⟩ := listBadDate_concat_error
              (fun c hcm hcb => hpt c (by
                have h1 := List.sizeOf_lt_of_mem hcm
                simp
                omega) hcb) hl
            refine ⟨e, ?_⟩
            rw [notValue, he]
            rfl
        | str s => simp [badListValue] at h
        | dict d => simp [badListValue] at h
      · rw [if_neg hk] at h ⊢
        exact ih (fun c hc hcb => hpt c (by simp at hc ⊢; omega) hcb) h

theorem orBadDate_error {entries : List (String × Py)}
    (hpt : ∀ c : Py, sizeOf c < sizeOf entries → criteriaHasBadDate c = true →
      ∃ e, parse_criteria c = Except.error e)
    (h : orBadDate entries = true) : ∃ e, orPart entries = Except.error e := by
  induction entries with
  | nil => simp [orBadDate] at h
  | cons kv rest ih =>
      obtain ⟨k, v⟩ := kv
      rw [orBadDate] at h
      rw [orPart]
      by_cases hk : k = "or"
      · rw [if_pos hk] at h ⊢
        cases v with
        | list l =>
            have hl : listBadDate l = true := by simpa [badListValue] using h
            obtain ⟨e, he⟩ := listBadDate_orGroups_error
              (fun c hcm hcb => hpt c (by
                have h1 := List.sizeOf_lt_of_mem hcm
                simp
                omega) hcb) hl
            exact ⟨e, by rw [orValue, he]⟩
        | str s => simp [badListValue] at h
        | dict d => simp [badListValue] at h
      · rw [if_neg hk] at h ⊢
        exact ih (fun c hc hcb => hpt c (by simp at hc ⊢; omega) hcb) h

theorem criteriaHasBadDate_error :
    ∀ (n : Nat) (p : Py), sizeOf p < n → criteriaHasBadDate p = true →
      ∃ e, parse_criteria p = Except.error e := by
  intro n
  induction n with
  | zero => intro p hp; omega
  | succ n ih =>
      intro p hp hbad
      cases p with
      | str s => simp [criteriaHasBadDate] at hbad
      | list l => simp [criteriaHasBadDate] at hbad
      | dict entries =>
          rw [criteriaHasBadDate] at hbad
          have hptE : ∀ c : Py, sizeOf c < sizeOf entries →
              criteriaHasBadDate c = true → ∃ e, parse_criteria c = Except.error e := by
            intro c hc hcb
            refine ih c ?_ hcb
            have hlt : sizeOf entries < sizeOf (Py.dict entries) := by simp
            omega
          rw [parse_criteria]
          rcases bor_elim hbad with h12 | hor
          · rcases bor_elim h12 with hleaf | hnot
            · obtain ⟨e, he⟩ := leafBadDate_error hleaf
              refine ⟨e, ?_⟩
              rw [he]
              rfl
            · cases hb : leafLoop entries with
              | error e => exact ⟨e, rfl⟩
              | ok base =>
                  simp only [exceptBind_ok]
                  obtain ⟨e, he⟩ := notBadDate_error hptE hnot
                  refine ⟨e, ?_⟩
                  rw [he]
                  rfl
          · cases hb : leafLoop entries with
            | error e => exact ⟨e, rfl⟩
            | ok base =>
                simp only [exceptBind_ok]
                cases hn : notPart entries with
                | error e => exact ⟨e, rfl⟩
                | ok nt =>
                    simp only [exceptBind_ok]
                    obtain ⟨e, he⟩ := orBadDate_error hptE hor
                    refine ⟨e, ?_⟩
                    rw [he]
                    rfl

theorem dsl_bad_error {criteria : Py} (h : criteriaHasBadDate criteria = true) :
    ∃ e, dsl_to_search criteria = Except.error e := by
  obtain ⟨e, he⟩ := criteriaHasBadDate_error (sizeOf criteria + 1) criteria (by omega) h
  refine ⟨e, ?_⟩
  rw [dsl_to_search, he]
  rfl

/-- Claim C9: criteria containing a malformed since/before date string make
the compilation fail and the error surface to the caller before any network
activity — the event trace is empty: no connection, login, folder
selection, search or fetch is attempted. -/
theorem c9 (folder : String) (criteria : Py) (fields : Option (List (String × Bool)))
    (srv : Server) (h : criteriaHasBadDate criteria = true) :
    (search folder criteria fields srv).1 = [] ∧
    ∃ e, (search folder criteria fields srv).2 = Except.error e := by
  obtain ⟨e, he⟩ := dsl_bad_error h
  unfold search
  rw [he]
  exact ⟨rfl, e, rfl⟩

theorem c9_witness :
    criteriaHasBadDate (Py.dict [("since", Py.str "2023-13-01")]) = true ∧
    (search "INBOX" (Py.dict [("since", Py.str "2023-13-01")]) none
        (Server.mk [1, 2] (fun _ => emptyEmail))).1 = [] ∧
    ∃ e, (search "INBOX" (Py.dict [("since", Py.str "2023-13-01")]) none
        (Server.mk [1, 2] (fun _ => emptyEmail))).2 = Except.error e :=
  ⟨rfl,
    (c9 "INBOX" (Py.dict [("since", Py.str "2023-13-01")]) none
      (Server.mk [1, 2] (fun _ => emptyEmail)) rfl).1,
    (c9 "INBOX" (Py.dict [("since", Py.str "2023-13-01")]) none
      (Server.mk [1, 2] (fun _ => emptyEmail)) rfl).2⟩
